import Mathlib

/-!
Verification of the `osmoinplace` node lifecycle supervisor and
state-acquisition pipeline (`src/main.rs`), as a shallow embedding.

Process output is modelled as a list of lines; each supervised run is a
function from the line list to a trace of observable events (echoed lines,
callback invocations, kill, wait, binary handoff) together with an error
flag.  Substring matching mirrors Rust's `str::contains`.
-/

/-- `leadsWith pat s` : `pat` is a prefix of `s` (character lists). -/
def leadsWith : List Char → List Char → Bool
  | [], _ => true
  | _ :: _, [] => false
  | p :: ps, c :: cs => p == c && leadsWith ps cs

/-- `containsSub pat s` : `pat` occurs as a contiguous substring of `s`;
mirrors Rust `str::contains`. -/
def containsSub (pat : List Char) : List Char → Bool
  | [] => leadsWith pat []
  | c :: cs => leadsWith pat (c :: cs) || containsSub pat cs

/-- `strContains l pat` : the line `l` contains `pat` as a substring
(Rust `line.contains(pat)`). -/
def strContains (l pat : String) : Bool :=
  containsSub pat.toList l.toList

/-- The ready marker scanned for in `start_sync` and `start_standalone`. -/
def readyMarker : String := "indexed block events"

/-- The consensus-failure marker scanned for in `start_in_place_testnet`. -/
def consensusMarker : String := "CONSENSUS FAILURE!!!"

/-- Observable events of a supervised run, in emission order. -/
inductive Ev where
  /-- the line was echoed to the operator log (`println!`) -/
  | println (l : String)
  /-- the operator-supplied `on_ready` shell command was invoked (`sh -c`) -/
  | callback
  /-- the child process was forcibly killed (`child.kill()`) -/
  | kill
  /-- the supervisor waited for the child to exit (`child.wait()`) -/
  | wait
  /-- handoff: a new standalone run was spawned from the replacement binary -/
  | spawnStandalone
deriving DecidableEq, Repr

/-- Number of callback invocations in a trace. -/
def countCb : List Ev → Nat
  | [] => 0
  | Ev.println _ :: tl => countCb tl
  | Ev.callback :: tl => countCb tl + 1
  | Ev.kill :: tl => countCb tl
  | Ev.wait :: tl => countCb tl
  | Ev.spawnStandalone :: tl => countCb tl

/-! ## Process Supervisor: `start_sync` (src/main.rs lines 351-380)

The loop echoes each line; when `stop_on_first_indexed_block_events` is set
and the line contains the ready marker, the child is killed and the loop
breaks; after the loop the supervisor always calls `child.wait()`. -/

/-- The line-consumption loop of `start_sync`. -/
def syncGo (stopOnFirst : Bool) : List String → List Ev
  | [] => []
  | l :: ls =>
    Ev.println l ::
      (if stopOnFirst && strContains l readyMarker then [Ev.kill]
       else syncGo stopOnFirst ls)

/-- `start_sync`: run the loop over the child's output lines, then wait for
process exit. -/
def start_sync (stopOnFirst : Bool) (lines : List String) : List Ev :=
  syncGo stopOnFirst lines ++ [Ev.wait]

/-! ## Process Supervisor: `start_standalone` (src/main.rs lines 442-476)

Per line: echo; if `on_ready` is set, the seen-flag is clear and the line
contains the ready marker, run the shell command — a non-zero exit returns
an error immediately (skipping the final wait), otherwise set the flag.
After end of stream, wait for process exit.  `cbOk` models the exit status
of the operator's shell command. -/

/-- The line-consumption loop of `start_standalone`.  Returns the event
trace and an error flag (`true` = returned `CallbackError` early). -/
def standaloneGo (onReady : Option String) (cbOk : Bool) :
    Bool → List String → List Ev × Bool
  | _, [] => ([], false)
  | executed, l :: ls =>
    match onReady with
    | some _ =>
      if !executed && strContains l readyMarker then
        if cbOk then
          let r := standaloneGo onReady cbOk true ls
          (Ev.println l :: Ev.callback :: r.1, r.2)
        else ([Ev.println l, Ev.callback], true)
      else
        let r := standaloneGo onReady cbOk executed ls
        (Ev.println l :: r.1, r.2)
    | none =>
      let r := standaloneGo onReady cbOk executed ls
      (Ev.println l :: r.1, r.2)

/-- `start_standalone`: seen-flag starts clear for this run; on clean end of
stream, wait for process exit; on callback error, return without waiting. -/
def start_standalone (onReady : Option String) (cbOk : Bool)
    (lines : List String) : List Ev × Bool :=
  let r := standaloneGo onReady cbOk false lines
  if r.2 then r else (r.1 ++ [Ev.wait], false)

/-! ## Process Supervisor: `start_in_place_testnet` (src/main.rs lines 382-440)

Per line: echo; then, if `on_ready` is set, the upgrade handler is absent
and the seen-flag is clear, run the shell command — note the source has NO
marker test on this path, the command runs on the first line whatever its
content; a non-zero exit returns an error immediately.  Then, if the line
contains the consensus-failure marker, kill the child and break.  After the
loop, wait; then, whenever a replacement binary was supplied (the upgrade
handler is NOT consulted here), hand off to `start_standalone` on the new
binary, whose run consumes its own output lines (`lines2`). -/

/-- The line-consumption loop of `start_in_place_testnet`. -/
def inPlaceGo (upgradeHandler onReady : Option String) (cbOk : Bool) :
    Bool → List String → List Ev × Bool
  | executed, [] =>
    let _ := executed
    ([], false)
  | executed, l :: ls =>
    match onReady with
    | some _ =>
      if upgradeHandler.isNone && !executed then
        if cbOk then
          let r :=
            if strContains l consensusMarker then ([Ev.kill], false)
            else inPlaceGo upgradeHandler onReady cbOk true ls
          (Ev.println l :: Ev.callback :: r.1, r.2)
        else ([Ev.println l, Ev.callback], true)
      else
        let r :=
          if strContains l consensusMarker then ([Ev.kill], false)
          else inPlaceGo upgradeHandler onReady cbOk executed ls
        (Ev.println l :: r.1, r.2)
    | none =>
      let r :=
        if strContains l consensusMarker then ([Ev.kill], false)
        else inPlaceGo upgradeHandler onReady cbOk executed ls
      (Ev.println l :: r.1, r.2)

/-- `start_in_place_testnet`: run the loop; on callback error return at
once (no wait, no handoff); otherwise wait, then if a replacement binary
was supplied spawn the post-handoff standalone run on it. -/
def start_in_place_testnet (upgradeHandler newBin onReady : Option String)
    (cbOk : Bool) (lines lines2 : List String) : List Ev × Bool :=
  let r := inPlaceGo upgradeHandler onReady cbOk false lines
  if r.2 then r
  else
    match newBin with
    | none => (r.1 ++ [Ev.wait], false)
    | some _ =>
      let r2 := start_standalone onReady cbOk lines2
      (r.1 ++ Ev.wait :: Ev.spawnStandalone :: r2.1, r2.2)

/-! ## Directory State Manager: `backup` / `restore` (src/main.rs lines 292-349)

A directory tree is a mutual inductive: a node is a file (byte content) or
a directory with a named entry list.  The filesystem state tracked here is
the two directory slots the operations touch: the osmosis home and the
backup path; `none` means the directory does not exist.

`fs_extra::dir::copy` with `copy_inside(true)` and a non-existent
destination (both call sites remove the destination first) recursively
copies the source tree so that the source's contents land directly under
the destination — no extra wrapping directory level; a non-existent source
is a `NotFound` error. -/

mutual
/-- A directory-tree node: file with byte content, or directory. -/
inductive DirTree where
  | file (content : List Nat) : DirTree
  | dir (entries : EntryList) : DirTree
/-- Named entries of a directory. -/
inductive EntryList where
  | nil : EntryList
  | cons (name : String) (child : DirTree) (rest : EntryList) : EntryList
end

mutual
/-- Recursive copy of a tree (`fs_extra`'s directory walk). -/
def copyTree : DirTree → DirTree
  | .file b => .file b
  | .dir es => .dir (copyEntries es)
/-- Recursive copy of a directory's entries. -/
def copyEntries : EntryList → EntryList
  | .nil => .nil
  | .cons n t rest => .cons n (copyTree t) (copyEntries rest)
end

/-- Errors of the directory operations. -/
inductive DirErr where
  /-- `fs_extra` copy from a non-existent source -/
  | notFound
deriving DecidableEq, Repr

/-- The two directory slots `backup`/`restore` operate on; `none` means the
path does not exist on disk. -/
structure FsSt where
  home : Option DirTree
  bak : Option DirTree

/-- `fs_extra::dir::copy` with `copy_inside(true)` into a now-absent
destination: yields the copied source tree, or `NotFound`. -/
def copyDirInside : Option DirTree → Except DirErr DirTree
  | none => .error .notFound
  | some t => .ok (copyTree t)

/-- `backup`: remove the backup path if it exists, then copy home into it.
Returns the state after the operation and the error, if any. -/
def backup (s : FsSt) : FsSt × Option DirErr :=
  let s1 : FsSt := { s with bak := none }
  match copyDirInside s1.home with
  | .error e => (s1, some e)
  | .ok t => ({ s1 with bak := some t }, none)

/-- `restore`: remove the osmosis home if it exists, then copy the backup
path into it.  The removal is performed before the copy is attempted, so it
happens even when the backup source turns out not to exist. -/
def restore (s : FsSt) : FsSt × Option DirErr :=
  let s1 : FsSt := { s with home := none }
  match copyDirInside s1.bak with
  | .error e => (s1, some e)
  | .ok t => ({ s1 with home := some t }, none)

/-! ## Snapshot Pipeline: `download_mainnet_state` (src/main.rs lines 190-290)

The home directory's files are a path-keyed association list (paths are
component lists, contents byte lists).  Stage order mirrors the source:
remove the existing home; run the external binary's `init` (modelled by an
arbitrary resulting file set `initFs`); fetch the genesis document and
write it at `config/genesis.json`; resolve the snapshot URL; stream the
snapshot body to a temporary file (requires a declared content length,
else `ProtocolError` *before* the temp file is created); finally lz4-decode
and tar-unpack the temp file onto the home directory, later archive
entries and archive entries over existing files both overwriting. -/

/-- Files of the home directory: path components ↦ byte content. -/
def Fs : Type := List (List String × List Nat)

/-- Write (create or overwrite) one file. -/
def fsSet (fs : Fs) (p : List String) (c : List Nat) : Fs :=
  (p, c) :: List.filter (fun e => !(e.1 == p)) fs

/-- Read one file. -/
def fsGet (fs : Fs) (p : List String) : Option (List Nat) :=
  (List.find? (fun e => e.1 == p) fs).map (fun e => e.2)

/-- An HTTP response for the snapshot artifact: the optional
`content-length` declaration and the body's chunk sequence. -/
structure Response where
  contentLength : Option Nat
  chunks : List (List Nat)

/-- State of the snapshot transfer: whether the temporary file was created,
its accumulated bytes, and the received-bytes counter. -/
structure DlSt where
  tempCreated : Bool
  temp : List Nat
  downloaded : Nat
deriving DecidableEq, Repr

/-- Pipeline errors. -/
inductive PErr where
  /-- response shape unusable (e.g. missing content length) -/
  | protocolError
  /-- lz4 decompression or tar extraction failure -/
  | formatError
deriving DecidableEq, Repr

/-- The snapshot download stage: require a declared content length (else
`ProtocolError`, temp file never created, no chunk consumed); then create
the temp file and append each body chunk to it, advancing the counter. -/
def downloadSnapshot (r : Response) : DlSt × Option PErr :=
  match r.contentLength with
  | none => (⟨false, [], 0⟩, some .protocolError)
  | some _ =>
    (r.chunks.foldl
      (fun st c => ⟨st.tempCreated, st.temp ++ c, st.downloaded + c.length⟩)
      ⟨true, [], 0⟩, none)

/-- Tar unpack onto the home directory: write each archive entry in order,
overwriting any existing file at the same path. -/
def unpackArchive (ar : List (List String × List Nat)) (fs : Fs) : Fs :=
  ar.foldl (fun a e => fsSet a e.1 e.2) fs

/-- `download_mainnet_state`: wipe home, binary `init` (result `initFs`),
genesis fetch + write, snapshot download, lz4+tar decode (`dec`, an
external collaborator mapping the temp file's bytes to archive entries or
a `FormatError`), extraction. -/
def download_mainnet_state (dec : List Nat → Except PErr (List (List String × List Nat)))
    (initFs : Fs) (genesisBody : List Nat) (r : Response) : Except PErr Fs :=
  let fs := initFs
  let fs := fsSet fs ["config", "genesis.json"] genesisBody
  match downloadSnapshot r with
  | (_, some e) => .error e
  | (st, none) =>
    match dec st.temp with
    | .error e => .error e
    | .ok ar => .ok (unpackArchive ar fs)

/-! ## CLI dispatch: `runCmd` (src/main.rs lines 117-188)

`runCmd` first checks that the configured `osmosisd` binary resolves on
`PATH` (`which::which`); if it does not, it returns an error at once,
before dispatching on the subcommand — so no command, including `Backup`
and `Restore` which never execute the node binary, performs any filesystem
or network work in that case.  `whichOk` models the result of the `PATH`
lookup; `World` bundles the external inputs each subcommand consumes. -/

/-- The CLI subcommands. -/
inductive CmdE where
  | downloadMainnetState
  | backupCmd
  | restoreCmd
  | startSyncCmd (stopOnFirst : Bool)
  | startInPlaceTestnetCmd (upgradeHandler newBin onReady : Option String)
  | startStandaloneCmd (onReady : Option String)
  | magicStartCmd (download : Bool) (upgradeHandler newBin onReady : Option String)

/-- External inputs consumed by the subcommands. -/
structure World where
  /-- state of the home and backup directory slots -/
  fsSt : FsSt
  /-- file set produced by the external binary's `init` -/
  initFs : Fs
  /-- body of the genesis endpoint -/
  genesisBody : List Nat
  /-- snapshot artifact response -/
  resp : Response
  /-- lz4+tar decoding of the downloaded snapshot bytes -/
  dec : List Nat → Except PErr (List (List String × List Nat))
  /-- exit status of the operator's `on_ready` shell command -/
  cbOk : Bool
  /-- output lines of the (first) supervised node process -/
  lines : List String
  /-- output lines of the post-handoff node process -/
  lines2 : List String
  /-- output lines of the testnet phase of `magic-start` -/
  lines3 : List String
  /-- output lines of the post-handoff run of `magic-start` -/
  lines4 : List String

/-- Top-level errors of `runCmd`. -/
inductive RunErr where
  /-- the configured binary does not resolve on `PATH` -/
  | osmosisdNotFound
  | pipeErr (e : PErr)
  | dirErr (e : DirErr)
  /-- non-zero exit of the `on_ready` shell command -/
  | callbackErr
deriving DecidableEq, Repr

/-- Result of a successfully dispatched subcommand. -/
inductive RunOut where
  /-- final home file set after `download-mainnet-state` -/
  | pipeline (fs : Fs)
  /-- directory slots after `backup` / `restore` -/
  | dirOp (s : FsSt)
  /-- event trace of a supervised run -/
  | runEv (tr : List Ev)
  /-- `magic-start`: first-stage result, sync trace, testnet trace -/
  | magic (stage1 : Sum Fs FsSt) (syncTr testnetTr : List Ev)

/-- `runCmd`: the `which` check precedes the dispatch on the subcommand. -/
def runCmd (whichOk : Bool) (cmd : CmdE) (w : World) : Except RunErr RunOut :=
  if !whichOk then .error .osmosisdNotFound
  else
    match cmd with
    | .downloadMainnetState =>
      match download_mainnet_state w.dec w.initFs w.genesisBody w.resp with
      | .error e => .error (.pipeErr e)
      | .ok fs => .ok (.pipeline fs)
    | .backupCmd =>
      match backup w.fsSt with
      | (_, some e) => .error (.dirErr e)
      | (s, none) => .ok (.dirOp s)
    | .restoreCmd =>
      match restore w.fsSt with
      | (_, some e) => .error (.dirErr e)
      | (s, none) => .ok (.dirOp s)
    | .startSyncCmd stopOnFirst => .ok (.runEv (start_sync stopOnFirst w.lines))
    | .startInPlaceTestnetCmd uh nb o =>
      let r := start_in_place_testnet uh nb o w.cbOk w.lines w.lines2
      if r.2 then .error .callbackErr else .ok (.runEv r.1)
    | .startStandaloneCmd o =>
      let r := start_standalone o w.cbOk w.lines
      if r.2 then .error .callbackErr else .ok (.runEv r.1)
    | .magicStartCmd dl uh nb o =>
      let stage1 : Except RunErr (Sum Fs FsSt) :=
        if dl then
          match download_mainnet_state w.dec w.initFs w.genesisBody w.resp with
          | .error e => .error (.pipeErr e)
          | .ok fs => .ok (.inl fs)
        else
          match restore w.fsSt with
          | (_, some e) => .error (.dirErr e)
          | (s, none) => .ok (.inr s)
      match stage1 with
      | .error e => .error e
      | .ok s1 =>
        let syncTr := start_sync true w.lines
        let r := start_in_place_testnet uh nb o w.cbOk w.lines3 w.lines4
        if r.2 then .error .callbackErr else .ok (.magic s1 syncTr r.1)

/-! ## Helper lemmas -/

mutual
/-- Recursive copy reproduces a tree exactly. -/
theorem copyTree_eq : (t : DirTree) → copyTree t = t
  | .file _ => rfl
  | .dir es => by rw [copyTree, copyEntries_eq]
/-- Recursive copy reproduces a directory's entries exactly. -/
theorem copyEntries_eq : (es : EntryList) → copyEntries es = es
  | .nil => rfl
  | .cons n t rest => by rw [copyEntries, copyTree_eq, copyEntries_eq]
end

theorem find?_filter_ne (p q : List String) (h : q ≠ p) (fs : Fs) :
    List.find? (fun e => e.1 == q) (List.filter (fun e => !(e.1 == p)) fs) =
      List.find? (fun e => e.1 == q) fs := by
  rw [List.find?_filter]
  congr 1
  funext a
  by_cases hq : (a.1 == q) = true
  · have hp : (a.1 == p) = false :=
      beq_eq_false_iff_ne.mpr (eq_of_beq hq ▸ Ne.symm (Ne.symm h))
    simp [hq, hp]
  · have hq2 : (a.1 == q) = false := by simpa using hq
    simp [hq2]

theorem fsGet_fsSet_self (fs : Fs) (p : List String) (c : List Nat) :
    fsGet (fsSet fs p c) p = some c := by
  unfold fsGet fsSet
  simp only [List.find?_cons]
  simp

theorem fsGet_fsSet_ne (fs : Fs) (p q : List String) (c : List Nat)
    (h : q ≠ p) : fsGet (fsSet fs p c) q = fsGet fs q := by
  have hb : (p == q) = false := beq_eq_false_iff_ne.mpr (Ne.symm h)
  unfold fsGet fsSet
  simp only [List.find?_cons, hb, find?_filter_ne p q h]

theorem countCb_append (a b : List Ev) :
    countCb (a ++ b) = countCb a + countCb b := by
  induction a with
  | nil => simp [countCb]
  | cons e tl ih =>
    cases e with
    | println l => simp [countCb, ih]
    | callback => simp [countCb, ih]; omega
    | kill => simp [countCb, ih]
    | wait => simp [countCb, ih]
    | spawnStandalone => simp [countCb, ih]

theorem syncGo_kill_iff (lines : List String) :
    Ev.kill ∈ syncGo true lines ↔ ∃ l ∈ lines, strContains l readyMarker = true := by
  induction lines with
  | nil => simp [syncGo]
  | cons l ls ih =>
    by_cases hm : strContains l readyMarker = true
    · simp [syncGo, hm]
    · have hm2 : strContains l readyMarker = false := by simpa using hm
      simp [syncGo, hm2, ih]

theorem syncGo_no_match (lines : List String)
    (h : ∀ l ∈ lines, strContains l readyMarker = false) :
    syncGo true lines = lines.map Ev.println := by
  induction lines with
  | nil => rfl
  | cons l ls ih =>
    have hl := h l (by simp)
    simp [syncGo, hl, ih fun x hx => h x (by simp [hx])]

theorem syncGo_split (pre : List String) (m : String) (post : List String)
    (hpre : ∀ l ∈ pre, strContains l readyMarker = false)
    (hm : strContains m readyMarker = true) :
    syncGo true (pre ++ m :: post) =
      pre.map Ev.println ++ [Ev.println m, Ev.kill] := by
  induction pre with
  | nil => simp [syncGo, hm]
  | cons l ls ih =>
    have hl := hpre l (by simp)
    simp [syncGo, hl, ih fun x hx => hpre x (by simp [hx])]

theorem standaloneGo_countCb_true (o : Option String) (cbOk : Bool) :
    ∀ lines, countCb (standaloneGo o cbOk true lines).1 = 0 := by
  intro lines
  induction lines with
  | nil => cases o <;> simp [standaloneGo, countCb]
  | cons l ls ih => cases o <;> simp [standaloneGo, countCb, ih]

theorem standaloneGo_countCb (o : Option String) (cbOk : Bool)
    (ex : Bool) (lines : List String) :
    countCb (standaloneGo o cbOk ex lines).1 ≤ 1 := by
  induction lines generalizing ex with
  | nil => cases o <;> simp [standaloneGo, countCb]
  | cons l ls ih =>
    cases o with
    | none => simpa [standaloneGo, countCb] using ih ex
    | some c =>
      cases ex with
      | true => simpa [standaloneGo, countCb] using ih true
      | false =>
        by_cases hm : strContains l readyMarker = true
        · cases cbOk with
          | true =>
            simp [standaloneGo, countCb, hm, standaloneGo_countCb_true]
          | false => simp [standaloneGo, countCb, hm]
        · have hm2 : strContains l readyMarker = false := by simpa using hm
          simpa [standaloneGo, countCb, hm2] using ih false

theorem inPlaceGo_countCb_blocked (uh o : Option String) (cbOk : Bool)
    (ex : Bool) (hblock : (uh.isNone && !ex) = false) :
    ∀ lines, countCb (inPlaceGo uh o cbOk ex lines).1 = 0 := by
  intro lines
  induction lines with
  | nil => cases o <;> simp [inPlaceGo, countCb]
  | cons l ls ih =>
    cases o with
    | none =>
      by_cases hcm : strContains l consensusMarker = true
      · simp [inPlaceGo, countCb, hcm]
      · have hcm2 : strContains l consensusMarker = false := by simpa using hcm
        simp [inPlaceGo, countCb, hcm2, ih]
    | some c =>
      by_cases hcm : strContains l consensusMarker = true
      · simp [inPlaceGo, countCb, hcm, hblock]
      · have hcm2 : strContains l consensusMarker = false := by simpa using hcm
        simp [inPlaceGo, countCb, hcm2, hblock, ih]

theorem inPlaceGo_countCb (uh o : Option String) (cbOk : Bool)
    (ex : Bool) (lines : List String) :
    countCb (inPlaceGo uh o cbOk ex lines).1 ≤ 1 := by
  induction lines generalizing ex with
  | nil => cases o <;> simp [inPlaceGo, countCb]
  | cons l ls ih =>
    cases o with
    | none =>
      by_cases hcm : strContains l consensusMarker = true
      · simp [inPlaceGo, countCb, hcm]
      · have hcm2 : strContains l consensusMarker = false := by simpa using hcm
        simpa [inPlaceGo, countCb, hcm2] using ih ex
    | some c =>
      by_cases hfire : (uh.isNone && !ex) = true
      · cases cbOk with
        | true =>
          by_cases hcm : strContains l consensusMarker = true
          · simp [inPlaceGo, countCb, hcm, hfire]
          · have hcm2 : strContains l consensusMarker = false := by simpa using hcm
            have h0 := inPlaceGo_countCb_blocked uh (some c) true true
              (by simp) ls
            simp [inPlaceGo, countCb, hcm2, hfire, h0]
        | false => simp [inPlaceGo, countCb, hfire]
      · have hfire2 : (uh.isNone && !ex) = false := by simpa using hfire
        by_cases hcm : strContains l consensusMarker = true
        · simp [inPlaceGo, countCb, hcm, hfire2]
        · have hcm2 : strContains l consensusMarker = false := by simpa using hcm
          simpa [inPlaceGo, countCb, hcm2, hfire2] using ih ex

theorem standaloneGo_cbFail (c : String) (post : List String) :
    ∀ pre m, (∀ l ∈ pre, strContains l readyMarker = false) →
      strContains m readyMarker = true →
      standaloneGo (some c) false false (pre ++ m :: post) =
        (pre.map Ev.println ++ [Ev.println m, Ev.callback], true) := by
  intro pre
  induction pre with
  | nil =>
    intro m _ hm
    simp [standaloneGo, hm]
  | cons l ls ih =>
    intro m hpre hm
    have hl := hpre l (by simp)
    simp [standaloneGo, hl, ih m (fun x hx => hpre x (by simp [hx])) hm]

theorem inPlaceGo_handler_set (h : String) (o : Option String) (cbOk : Bool)
    (ex : Bool) (lines : List String) :
    (inPlaceGo (some h) o cbOk ex lines).2 = false ∧
      Ev.callback ∉ (inPlaceGo (some h) o cbOk ex lines).1 ∧
      ((∃ l ∈ lines, strContains l consensusMarker = true) →
        Ev.kill ∈ (inPlaceGo (some h) o cbOk ex lines).1) := by
  induction lines generalizing ex with
  | nil => cases o <;> simp [inPlaceGo]
  | cons l ls ih =>
    by_cases hcm : strContains l consensusMarker = true
    · cases o <;> simp [inPlaceGo, hcm]
    · have hcm2 : strContains l consensusMarker = false := by simpa using hcm
      have hi := ih ex
      have hkill : (∃ x ∈ l :: ls, strContains x consensusMarker = true) →
          Ev.kill ∈ (inPlaceGo (some h) o cbOk ex ls).1 := by
        rintro ⟨x, hx, hcx⟩
        rcases List.mem_cons.mp hx with rfl | hx2
        · rw [hcm2] at hcx
          cases hcx
        · exact hi.2.2 ⟨x, hx2, hcx⟩
      cases o with
      | none =>
        exact ⟨by simp [inPlaceGo, hcm2, hi.1],
          by simp [inPlaceGo, hcm2]; exact hi.2.1,
          fun hex => by simp [inPlaceGo, hcm2]; exact hkill hex⟩
      | some c =>
        exact ⟨by simp [inPlaceGo, hcm2, hi.1],
          by simp [inPlaceGo, hcm2]; exact hi.2.1,
          fun hex => by simp [inPlaceGo, hcm2]; exact hkill hex⟩

/-! ## Claims -/

/-- C1: in sync-to-tip mode (stop flag set), for every output line
sequence the process is killed iff some line contains
"indexed block events"; it is never killed on any line preceding the first
match (the trace up to the first matching line is pure echoes); and both
after a kill and after end of stream with no match, the supervisor's last
action is the wait reaping the process. -/
theorem start_sync_stop_on_marker (lines : List String) :
    (Ev.kill ∈ start_sync true lines ↔
      ∃ l ∈ lines, strContains l readyMarker = true) ∧
    (start_sync true lines).getLast? = some Ev.wait ∧
    ((∀ l ∈ lines, strContains l readyMarker = false) →
      start_sync true lines = lines.map Ev.println ++ [Ev.wait]) ∧
    (∀ pre m post, lines = pre ++ m :: post →
      (∀ l ∈ pre, strContains l readyMarker = false) →
      strContains m readyMarker = true →
      start_sync true lines =
        pre.map Ev.println ++ [Ev.println m, Ev.kill, Ev.wait]) := by
  refine ⟨?_, ?_, ?_, ?_⟩
  · rw [start_sync]
    simp only [List.mem_append, List.mem_singleton]
    constructor
    · rintro (hk | hk)
      · exact (syncGo_kill_iff lines).mp hk
      · cases hk
    · intro hex
      exact Or.inl ((syncGo_kill_iff lines).mpr hex)
  · exact List.getLast?_concat _
  · intro hnone
    rw [start_sync, syncGo_no_match lines hnone]
  · intro pre m post hsplit hpre hm
    subst hsplit
    rw [start_sync, syncGo_split pre m post hpre hm]
    simp

/-- Witness for C1 at a concrete stream: one non-matching line, then the
marker line, then a line never read; the node is killed exactly on the
marker line and then reaped. -/
theorem start_sync_stop_on_marker_witness :
    start_sync true ["executed block", "indexed block events height=1", "next"] =
      [Ev.println "executed block", Ev.println "indexed block events height=1",
        Ev.kill, Ev.wait] :=
  (start_sync_stop_on_marker _).2.2.2 ["executed block"]
    "indexed block events height=1" ["next"] rfl (by decide) (by decide)

theorem inPlaceGo_no_spawn (uh o : Option String) (cbOk : Bool)
    (ex : Bool) (lines : List String) :
    Ev.spawnStandalone ∉ (inPlaceGo uh o cbOk ex lines).1 := by
  induction lines generalizing ex with
  | nil => cases o <;> simp [inPlaceGo]
  | cons l ls ih =>
    by_cases hcm : strContains l consensusMarker = true
    · cases o with
      | none => simp [inPlaceGo, hcm]
      | some c =>
        by_cases hfire : (uh.isNone && !ex) = true
        · cases cbOk <;> simp [inPlaceGo, hcm, hfire]
        · have hfire2 : (uh.isNone && !ex) = false := by simpa using hfire
          simp [inPlaceGo, hcm, hfire2]
    · have hcm2 : strContains l consensusMarker = false := by simpa using hcm
      cases o with
      | none => simp [inPlaceGo, hcm2, ih ex]
      | some c =>
        by_cases hfire : (uh.isNone && !ex) = true
        · cases cbOk <;> simp [inPlaceGo, hcm2, hfire, ih true]
        · have hfire2 : (uh.isNone && !ex) = false := by simpa using hfire
          simp [inPlaceGo, hcm2, hfire2, ih ex]

/-- C2 (code-bug evidence): in in-place-testnet mode with `--on-ready` set
and no upgrade handler, the `on_ready` block of `start_in_place_testnet`
has no `line.contains("indexed block events")` test, so the shell command
runs on the very first output line even though that line does not contain
the ready marker — contradicting the flag's own doc comment ("Command to
run on first indexed block events"). -/
theorem in_place_testnet_callback_fires_without_marker :
    strContains "starting ABCI with Tendermint" readyMarker = false ∧
    (start_in_place_testnet none none (some "echo ready") true
        ["starting ABCI with Tendermint"] []).1 =
      [Ev.println "starting ABCI with Tendermint", Ev.callback, Ev.wait] := by
  exact ⟨by decide, rfl⟩

/-- C3 (counterexample): with NO upgrade handler but a replacement binary
supplied, the handoff still happens — `start_in_place_testnet` gates it
only on `new_osmosisd_bin` — refuting "exactly when both an upgrade
handler and a replacement binary path were supplied".  At an empty output
stream the trace is: wait, handoff, then the second run's wait. -/
theorem in_place_testnet_handoff_without_handler :
    (start_in_place_testnet none (some "osmosisd-v28") none true [] []).1 =
      [Ev.wait, Ev.spawnStandalone, Ev.wait] := rfl

/-- C3 (amended): the handoff is gated only on the replacement binary
path.  With an upgrade handler set and a replacement binary supplied,
the run never aborts early, the trace is the pre-upgrade run's events,
then wait, then the handoff followed by exactly the post-handoff
standalone run's events; the ready callback never fires in the
pre-upgrade segment; and if some line carries "CONSENSUS FAILURE!!!" the
original process's kill is in the pre-handoff segment.  With no
replacement binary there is no handoff. -/
theorem in_place_testnet_handoff (h b : String) (onReady : Option String)
    (cbOk : Bool) (lines lines2 : List String) :
    (∃ tr1,
      (start_in_place_testnet (some h) (some b) onReady cbOk lines lines2).1 =
        tr1 ++ Ev.wait :: Ev.spawnStandalone ::
          (start_standalone onReady cbOk lines2).1 ∧
      Ev.callback ∉ tr1 ∧
      ((∃ l ∈ lines, strContains l consensusMarker = true) →
        Ev.kill ∈ tr1)) ∧
    Ev.spawnStandalone ∉
      (start_in_place_testnet (some h) none onReady cbOk lines lines2).1 := by
  have hset := inPlaceGo_handler_set h onReady cbOk false lines
  constructor
  · refine ⟨(inPlaceGo (some h) onReady cbOk false lines).1, ?_, hset.2.1,
      hset.2.2⟩
    simp [start_in_place_testnet, hset.1]
  · simp [start_in_place_testnet, hset.1,
      inPlaceGo_no_spawn (some h) onReady cbOk false lines]

/-- Witness for C3's amended theorem at a concrete configuration: upgrade
handler set, no replacement binary, so no handoff event appears. -/
theorem in_place_testnet_handoff_witness :
    Ev.spawnStandalone ∉
      (start_in_place_testnet (some "v28") none (some "echo ready") true
        ["indexed block events", "CONSENSUS FAILURE!!!"] ["ok"]).1 :=
  (in_place_testnet_handoff "v28" "osmosisd-v28" (some "echo ready") true
    ["indexed block events", "CONSENSUS FAILURE!!!"] ["ok"]).2

/-- C8: the ready callback fires at most once per supervised run: the
trace of a standalone run (also used post-handoff) and the trace of the
in-place-testnet line loop each contain at most one callback event,
whatever the lines, the callback's exit status and the upgrade-handler
setting; each run's seen-flag is a run-local variable entering the loop
clear (`false` below), not process-wide state. -/
theorem callback_at_most_once_per_run (o : Option String) (cbOk : Bool)
    (uh : Option String) (lines lines2 : List String) :
    countCb (start_standalone o cbOk lines).1 ≤ 1 ∧
    countCb (inPlaceGo uh o cbOk false lines2).1 ≤ 1 := by
  constructor
  · unfold start_standalone
    by_cases hr : (standaloneGo o cbOk false lines).2 = true
    · simpa [hr] using standaloneGo_countCb o cbOk false lines
    · have hr2 : (standaloneGo o cbOk false lines).2 = false := by simpa using hr
      simpa [hr2, countCb_append, countCb] using
        standaloneGo_countCb o cbOk false lines
  · exact inPlaceGo_countCb uh o cbOk false lines2

/-- C10: a non-zero exit of the on_ready command aborts the run at once.
In standalone mode the run returns the error with the trace ending at the
failing callback — no wait (and no kill) on the still-running child.  In
in-place-testnet mode without an upgrade handler the callback fires on
the first line, so the whole command stops there: no kill, no wait, and
no binary handoff whatever the replacement-binary setting. -/
theorem callback_failure_returns_immediately :
    (∀ (c : String) (pre : List String) (m : String) (post : List String),
      (∀ l ∈ pre, strContains l readyMarker = false) →
      strContains m readyMarker = true →
      start_standalone (some c) false (pre ++ m :: post) =
        (pre.map Ev.println ++ [Ev.println m, Ev.callback], true)) ∧
    (∀ (c : String) (nb : Option String) (l : String) (ls lines2 : List String),
      start_in_place_testnet none nb (some c) false (l :: ls) lines2 =
        ([Ev.println l, Ev.callback], true)) := by
  constructor
  · intro c pre m post hpre hm
    unfold start_standalone
    rw [standaloneGo_cbFail c post pre m hpre hm]
    simp
  · intro c nb l ls lines2
    rfl

/-- Witness for C10 at concrete streams: the standalone run stops at the
failing callback on the marker line, and the in-place-testnet run stops at
the failing callback on its first line. -/
theorem callback_failure_returns_immediately_witness :
    start_standalone (some "run-tests") false
        ["committed state", "indexed block events height=2"] =
      ([Ev.println "committed state",
        Ev.println "indexed block events height=2", Ev.callback], true) ∧
    start_in_place_testnet none (some "osmosisd-v28") (some "run-tests") false
        ["starting node"] [] =
      ([Ev.println "starting node", Ev.callback], true) :=
  ⟨callback_failure_returns_immediately.1 "run-tests" ["committed state"]
      "indexed block events height=2" [] (by decide) (by decide),
    callback_failure_returns_immediately.2 "run-tests" (some "osmosisd-v28")
      "starting node" [] []⟩

/-- C4 (counterexample): with genesis endpoint body `[1]` and an archive
whose `config/genesis.json` entry is `[9]` and whose `data/state.db` entry
is `[5]`, `download_mainnet_state` succeeds but leaves `[9]` — the
archive's bytes — at `config/genesis.json`, not the endpoint body `[1]`:
the genesis fetch runs BEFORE extraction, so tar unpack overwrites it. -/
theorem download_state_genesis_overwritten :
    (download_mainnet_state
        (fun _ => .ok
          [(["config", "genesis.json"], [9]), (["data", "state.db"], [5])])
        [] [1] ⟨some 2, [[7, 8]]⟩).map
      (fun fs =>
        (fsGet fs ["config", "genesis.json"], fsGet fs ["data", "state.db"])) =
      .ok (some [9], some [5]) ∧ ([9] : List Nat) ≠ [1] :=
  ⟨rfl, by decide⟩

/-- C4 (amended): for the pipeline's fixed stage order (wipe home, binary
init, genesis fetch, snapshot download, extraction) and an archive with
entries `config/genesis.json` and `data/state.db`, the resulting data
directory holds the archive's exact bytes for BOTH entries: `data/state.db`
as the claim states, and `config/genesis.json` as well, because extraction
runs after the genesis fetch and overwrites the fetched file. -/
theorem download_state_archive_bytes (initFs : Fs)
    (genesisBody sdb gjs : List Nat) (total : Nat) (chunks : List (List Nat)) :
    ∃ fs, download_mainnet_state
        (fun _ => .ok
          [(["config", "genesis.json"], gjs), (["data", "state.db"], sdb)])
        initFs genesisBody ⟨some total, chunks⟩ = .ok fs ∧
      fsGet fs ["data", "state.db"] = some sdb ∧
      fsGet fs ["config", "genesis.json"] = some gjs := by
  refine ⟨_, rfl, ?_, ?_⟩
  · exact fsGet_fsSet_self _ _ _
  · rw [show (unpackArchive
        [(["config", "genesis.json"], gjs), (["data", "state.db"], sdb)]
        (fsSet initFs ["config", "genesis.json"] genesisBody)) =
      fsSet (fsSet (fsSet initFs ["config", "genesis.json"] genesisBody)
        ["config", "genesis.json"] gjs) ["data", "state.db"] sdb from rfl,
      fsGet_fsSet_ne _ _ _ _ (by decide), fsGet_fsSet_self]

/-- C5: Backup of a non-empty home tree (arbitrary nesting, zero-byte
files included) followed by Restore into a fresh non-existent home
reproduces exactly the original tree, its contents directly under the
destination with no extra wrapping level. -/
theorem backup_restore_roundtrip (es : EntryList) (bak0 : Option DirTree)
    (_hne : es ≠ EntryList.nil) :
    (backup ⟨some (.dir es), bak0⟩).2 = none ∧
    (backup ⟨some (.dir es), bak0⟩).1.bak = some (.dir es) ∧
    (restore ⟨none, (backup ⟨some (.dir es), bak0⟩).1.bak⟩).2 = none ∧
    (restore ⟨none, (backup ⟨some (.dir es), bak0⟩).1.bak⟩).1.home =
      some (.dir es) := by
  refine ⟨rfl, ?_, ?_, ?_⟩ <;>
    simp [backup, restore, copyDirInside, copyTree_eq]

/-- Witness for C5: a tree with one zero-byte file round-trips over a
stale pre-existing backup. -/
theorem backup_restore_roundtrip_witness :
    (restore ⟨none,
        (backup ⟨some (.dir (.cons "data" (.file []) .nil)),
          some (.file [7])⟩).1.bak⟩).1.home =
      some (.dir (.cons "data" (.file []) .nil)) :=
  (backup_restore_roundtrip (.cons "data" (.file []) .nil) (some (.file [7]))
    (fun hcontra => EntryList.noConfusion hcontra)).2.2.2

/-- C6: `restore` removes an existing destination before the copy is
attempted: against a missing backup source it fails with `NotFoundError`
and the destination — whatever was there — is already gone when the
failure is reported; against an existing source the destination is
replaced by the copied backup tree. -/
theorem restore_removes_dest_before_copy (home0 : Option DirTree)
    (b : DirTree) :
    restore ⟨home0, none⟩ = (⟨none, none⟩, some DirErr.notFound) ∧
    restore ⟨home0, some b⟩ = (⟨some (copyTree b), some b⟩, none) :=
  ⟨rfl, rfl⟩

/-- C7: a snapshot response that declares no content length fails with
`ProtocolError` before the temporary file is created and before any chunk
of the body is consumed (no bytes written, counter still zero). -/
theorem download_no_content_length (r : Response)
    (h : r.contentLength = none) :
    downloadSnapshot r = (⟨false, [], 0⟩, some PErr.protocolError) := by
  unfold downloadSnapshot
  rw [h]

/-- Witness for C7: a response with chunks but no content length. -/
theorem download_no_content_length_witness :
    downloadSnapshot ⟨none, [[1, 2, 3]]⟩ =
      (⟨false, [], 0⟩, some PErr.protocolError) :=
  download_no_content_length ⟨none, [[1, 2, 3]]⟩ rfl

/-- C9: every CLI command — including Backup and Restore, which never run
the node binary — is behind the `which` check: when the configured
osmosisd binary does not resolve on `PATH`, `runCmd` returns the
not-found error before dispatching on the subcommand, so no subcommand
performs any of its filesystem, network or process work. -/
theorem runCmd_checks_binary_first (cmd : CmdE) (w : World) :
    runCmd false cmd w = .error RunErr.osmosisdNotFound := rfl
